import Mathlib

/-!
Verification development for the euniverse tile viewer.

The definitions below are a shallow embedding of the engine components of
the repository:

* the contrast/LUT pipeline (`ImageViewer.create_contrast_lut` in
  `image_viewer.py`),
* the WCS converter construction (`WCSConverter.__init__` in `wcs_utils.py`),
* the overlay geometry builder (`CatalogManager.make_ellipse`,
  `CatalogManager.get_MER`, `CatalogManager.get_selected_MER` and
  `ImageViewer.display_selected_MER`),
* the magnitude derivation (`CatalogManager.compute_magnitudes`),
* the point-pick hit test (`ImageViewer.handle_object_click`),
* the lasso selection update (`PlotDialog.on_lasso_select` in
  `catalog_plotter.py`),
* the asynchronous load pipeline (`ImageViewer.load_image` and
  `ImageViewer.on_image_loaded`).

Modelling conventions: Python floats are embedded as rationals (`ℚ`);
NumPy's float-to-uint8 cast is truncation toward zero followed by the modular
wrap to 8 bits; NumPy id arrays manipulated with `np.union1d` / `np.isin`
are embedded as finite sets of integers; Python strings are embedded through
their character lists so that all operations are kernel-computable.
-/

namespace Euniverse

/-! ### Python string primitives

`compute_magnitudes` uses `str.startswith` and `str.replace`.  We embed both
through the character list of the string, mirroring CPython semantics:
`replace` substitutes the leftmost non-overlapping occurrences, scanning left
to right.  The fuel argument of `replaceLoop` is the length of the subject
string, which suffices because every step consumes at least one character. -/

/-- Embedding of Python `s.startswith(pre)`. -/
def pyStartsWith (s pre : String) : Bool :=
  pre.data.isPrefixOf s.data

/-- Worker for `pyReplace`: replaces leftmost non-overlapping occurrences of
`pat` by `rep`, scanning left to right, consuming at least one character per
fuel unit. -/
def replaceLoop (pat rep : List Char) : ℕ → List Char → List Char
  | 0, s => s
  | fuel + 1, s =>
    if pat ≠ [] ∧ pat.isPrefixOf s then
      rep ++ replaceLoop pat rep fuel (s.drop pat.length)
    else
      match s with
      | [] => []
      | c :: rest => c :: replaceLoop pat rep fuel rest

/-- Embedding of Python `s.replace(pat, rep)`. -/
def pyReplace (s pat rep : String) : String :=
  String.mk (replaceLoop pat.data rep.data s.data.length s.data)

/-! ### Contrast/LUT pipeline

Embedding of `ImageViewer.create_contrast_lut` (image_viewer.py, lines
487-495).  The source builds `lut = np.arange(iinfo(input_dtype).max + 1,
dtype=np.float32)`, so the table is a function of the input sample value `v`;
we embed entry `v` of that table.  `astype(np.uint8)` on a non-negative
float is truncation toward zero (which on non-negatives is the floor)
followed by the modular wrap to 8 bits — NumPy does not saturate. -/

/-- Embedding of `np.clip(x, lo, hi)` for scalars. -/
def npClip (x lo hi : ℚ) : ℚ := max lo (min hi x)

/-- Embedding of `astype(np.uint8)` applied to a non-negative float value:
truncation toward zero, then reduction modulo 2^8. -/
def astype_uint8 (x : ℚ) : ℕ := (⌊x⌋).toNat % 256

/-- Embedding of `ImageViewer.create_contrast_lut(min_val, max_val,
input_dtype, np.uint8)`; the result applied to `v` is entry `v` of the
returned table (defined for every `v` below `iinfo(input_dtype).max + 1`).
Mirrors the source: `diff = max_val - min_val`; if `diff == 0` the table is
filled with `255`; otherwise the ramp is clipped to `[0, 1]`; in both cases
the final statement is `lut = (255 * lut).astype(output_dtype)`. -/
def create_contrast_lut (min_val max_val : ℚ) : ℕ → ℕ := fun v =>
  let diff := max_val - min_val
  let lutv : ℚ := if diff = 0 then 255 else npClip (((v : ℚ) - min_val) / diff) 0 1
  astype_uint8 (255 * lutv)

/-! ### WCS converter construction

Embedding of `WCSConverter.__init__` (wcs_utils.py, lines 4-16).  The
metadata mapping is embedded as a structure holding the keys the constructor
reads with `metadata[...]` (so they are present by typing; a missing key
would be a `KeyError`, which is outside this claim) plus the two optional
keys read with `metadata.get(...)`.  Every statement of the constructor is a
plain field store into the astropy `WCS` object; astropy performs no matrix
inversion at this point, and the constructor contains no raise statement, so
the translation is total.  The `Except` result type makes a hypothetical
construction-time error representable. -/

/-- Error taxonomy named by the specification for the WCS component. -/
inductive WCSError where
  | invalidTransform
  deriving DecidableEq

/-- Metadata mapping read by `WCSConverter.__init__`. -/
structure WCSMetadata where
  crpix1 : ℚ
  crpix2 : ℚ
  cd1_1 : ℚ
  cd1_2 : ℚ
  cd2_1 : ℚ
  cd2_2 : ℚ
  crval1 : ℚ
  crval2 : ℚ
  ctype1 : String
  ctype2 : String
  cunit1 : String
  cunit2 : String
  radesys : Option String
  equinox : Option ℚ
  deriving DecidableEq

/-- State of the constructed converter: the fields stored on `self.wcs.wcs`. -/
structure WCSState where
  crpix : ℚ × ℚ
  cd : (ℚ × ℚ) × (ℚ × ℚ)
  crval : ℚ × ℚ
  ctype : String × String
  cunit : String × String
  radesys : String
  equinox : ℚ
  deriving DecidableEq

/-- Embedding of `WCSConverter.__init__(metadata)`: stores the metadata
fields one by one, with the defaults `metadata.get('RADESYS', 'ICRS')` and
`metadata.get('EQUINOX', 2000.0)`, and never produces an error. -/
def WCSConverter_init (md : WCSMetadata) : Except WCSError WCSState :=
  Except.ok
    { crpix := (md.crpix1, md.crpix2)
      cd := ((md.cd1_1, md.cd1_2), (md.cd2_1, md.cd2_2))
      crval := (md.crval1, md.crval2)
      ctype := (md.ctype1, md.ctype2)
      cunit := (md.cunit1, md.cunit2)
      radesys := md.radesys.getD "ICRS"
      equinox := md.equinox.getD 2000 }

/-- CD-matrix determinant of a metadata mapping; the matrix is singular
exactly when this vanishes. -/
def cdDeterminant (md : WCSMetadata) : ℚ :=
  md.cd1_1 * md.cd2_2 - md.cd1_2 * md.cd2_1

/-! ### Overlay geometry builder

Embedding of `CatalogManager.make_ellipse`, `CatalogManager.get_MER`
(catalog_manager.py, lines 171-241) and `CatalogManager.get_selected_MER`
(lines 253-297).  A catalog row carries the six required columns; the
catalog additionally carries its `colnames` list, which is what the required
column check of `get_MER` inspects.  The WCS conversion
`wcs.world_to_pixel` is passed in as a function `ℚ → ℚ → ℚ × ℚ` from
(ra, dec) to (x, y).  The pen colour and width arguments of `make_ellipse`
are constants irrelevant to geometry and are omitted from the embedding. -/

/-- One row of the MER catalog, holding the required columns. -/
structure MERRow where
  object_id : ℤ
  right_ascension : ℚ
  declination : ℚ
  semimajor_axis : ℚ
  ellipticity : ℚ
  position_angle : ℚ
  deriving DecidableEq

/-- A loaded MER catalog: its column name list plus its rows. -/
structure MERCatalog where
  colnames : List String
  rows : List MERRow
  deriving DecidableEq

/-- Screen-space ellipse produced by `make_ellipse`: the item's rect is
`QRectF(x-a, y-b, 2*a, 2*b)` (centre `(x, y)`, semi-axes `a`, `b`), its
rotation is set to `90 - pa`, and the object id is stored as item data. -/
structure EllipseItem where
  x : ℚ
  y : ℚ
  a : ℚ
  b : ℚ
  rotation : ℚ
  object_id : ℤ
  deriving DecidableEq

/-- Embedding of `CatalogManager.make_ellipse(x, y, a, b, pa, color, width,
ID)` (geometry and id only). -/
def make_ellipse (x y a b pa : ℚ) (ID : ℤ) : EllipseItem :=
  { x := x, y := y, a := a, b := b, rotation := 90 - pa, object_id := ID }

/-- The per-row body of the `get_MER` loop: convert (ra, dec) to pixels,
flip the y axis (`y = image_height - y`), rescale the semimajor axis by 3
(`a = 3 * a`), derive the semi-minor axis (`b = a * (1 - e)`), and build the
ellipse item. -/
def make_MER_item (wcs : ℚ → ℚ → ℚ × ℚ) (image_height : ℚ) (r : MERRow) : EllipseItem :=
  let p := wcs r.right_ascension r.declination
  let y := image_height - p.2
  let a := 3 * r.semimajor_axis
  let b := a * (1 - r.ellipticity)
  make_ellipse p.1 y a b r.position_angle r.object_id

/-- The required-column list of `get_MER`, in source order. -/
def required_columns : List String :=
  ["OBJECT_ID", "RIGHT_ASCENSION", "DECLINATION",
   "SEMIMAJOR_AXIS", "POSITION_ANGLE", "ELLIPTICITY"]

/-- Embedding of `CatalogManager.get_MER(image_height)`.  The first
component is the error surfaced by the `except` handler (`None` when the
build succeeded), the second is `self.MER_items` afterwards.  Mirrors the
source: an empty catalog is falsy in Python, so `if not self.catalog` makes
the call return `[]` with no error; otherwise each required column is
checked against `self.catalog.colnames` in order and the first missing one
raises `KeyError(f"Column {col} missing in FITS table")`, which the handler
catches after `self.MER_items` was reset to `[]` and before any ellipse was
appended; if all columns are present, one item per row is built. -/
def get_MER (wcs : ℚ → ℚ → ℚ × ℚ) (image_height : ℚ) (cat : MERCatalog) :
    Option String × List EllipseItem :=
  if cat.rows.isEmpty then (none, [])
  else
    match required_columns.find? (fun c => !(decide (c ∈ cat.colnames))) with
    | some c => (some ("Column " ++ c ++ " missing in FITS table"), [])
    | none => (none, cat.rows.map (make_MER_item wcs image_height))

/-- Embedding of `CatalogManager.get_selected_MER(selected_object_ids,
image_height)`.  Mirrors the source guards: `if not self.catalog or not
self.wcs or not selected_object_ids: return []` (an empty table is falsy),
then `mask = np.isin(catalog['OBJECT_ID'], selected_object_ids)` with
`if not np.any(mask): return []`, and finally one item per selected row via
the same geometry as `get_MER` (the source differs only in pen colour). -/
def get_selected_MER (cat : Option MERCatalog) (hasWCS : Bool)
    (selected_object_ids : List ℤ) (image_height : ℚ)
    (wcs : ℚ → ℚ → ℚ × ℚ) : List EllipseItem :=
  match cat with
  | none => []
  | some c =>
    if c.rows.isEmpty || !hasWCS || selected_object_ids.isEmpty then []
    else
      let sel := c.rows.filter (fun r => decide (r.object_id ∈ selected_object_ids))
      if sel.isEmpty then []
      else sel.map (make_MER_item wcs image_height)

/-- The selection-highlight state of the viewer:
`catalog_manager.selected_MER_items`, which is exactly the set of highlight
ellipses present in the scene. -/
structure ViewerSelectionState where
  selected_items : List EllipseItem
  deriving DecidableEq

/-- Embedding of `ImageViewer.display_selected_MER(object_ids)`
(image_viewer.py, lines 360-383).  Mirrors the source: if there is no
catalog manager or no image, nothing happens; otherwise
`clear_selected_MER()` removes every old highlight item, and the items
returned by `get_selected_MER` (possibly none) become the new highlight
state. -/
def display_selected_MER (hasManager hasImage hasWCS : Bool)
    (cat : Option MERCatalog) (wcs : ℚ → ℚ → ℚ × ℚ) (image_height : ℚ)
    (st : ViewerSelectionState) (object_ids : List ℤ) : ViewerSelectionState :=
  if !hasManager || !hasImage then st
  else { selected_items := get_selected_MER cat hasWCS object_ids image_height wcs }

/-! ### Magnitude derivation

Embedding of `CatalogManager.compute_magnitudes` (catalog_manager.py, lines
148-168).  The catalog is embedded as its column list (name and numeric
data); `np.log10` is an external numeric routine and is passed in as a
function parameter.  The source iterates over a snapshot of
`self.catalog.colnames`, so the appended MAG columns are not themselves
visited; assigning a fresh column name appends it to the table. -/

/-- A named numeric catalog column. -/
structure NamedColumn where
  name : String
  values : List ℚ
  deriving DecidableEq

/-- The catalog table together with the `has_magnitudes` guard flag of
`CatalogManager`. -/
structure CatalogTable where
  columns : List NamedColumn
  has_magnitudes : Bool
  deriving DecidableEq

/-- Per-entry magnitude: `log_input = 1e-6 * flux`; positive entries get
`-2.5 * log10(log_input) + 8.90`, the rest are filled with `99.0`. -/
def mag_of_flux (log10 : ℚ → ℚ) (flux : ℚ) : ℚ :=
  let log_input := 1 / 1000000 * flux
  if 0 < log_input then -(5 / 2) * log10 log_input + 89 / 10 else 99

/-- The MAG column derived from a FLUX column: the name has FLUX replaced by
MAG, the data is the per-entry magnitude. -/
def mag_column (log10 : ℚ → ℚ) (c : NamedColumn) : NamedColumn :=
  { name := pyReplace c.name "FLUX" "MAG"
    values := c.values.map (mag_of_flux log10) }

/-- Embedding of `CatalogManager.compute_magnitudes()`: a no-op when
`has_magnitudes` is already set; otherwise every column whose name starts
with FLUX contributes a MAG column, and the flag is set. -/
def compute_magnitudes (log10 : ℚ → ℚ) (t : CatalogTable) : CatalogTable :=
  if t.has_magnitudes then t
  else
    { columns := t.columns ++
        (t.columns.filter (fun c => pyStartsWith c.name "FLUX")).map (mag_column log10)
      has_magnitudes := true }

/-! ### Point-pick hit test

Embedding of the MER branch of `ImageViewer.handle_object_click(scene_pos)`
(image_viewer.py, lines 872-900).  The source iterates over
`catalog_manager.MER_items` in list order and returns on the first ellipse
whose rect centre lies within Euclidean distance 10 of the click; the centre
of the rect built by `make_ellipse` is exactly `(x, y)`.  The source
compares `sqrt(dx^2 + dy^2) <= 10`; for non-negative radicands this is
equivalent to the squared comparison `dx^2 + dy^2 <= 100` used here, which
keeps the embedding inside `ℚ`.  The returned value is the stored object id
of the ellipse the click was handled on (`None` when no ellipse is hit). -/

/-- Squared Euclidean distance from the click position to the centre of an
ellipse item. -/
def click_dist_sq (sx sy : ℚ) (e : EllipseItem) : ℚ :=
  (sx - e.x) ^ 2 + (sy - e.y) ^ 2

/-- The source's per-ellipse test `distance <= 10`, in squared form. -/
def within_click_tolerance (sx sy : ℚ) (e : EllipseItem) : Bool :=
  decide (click_dist_sq sx sy e ≤ 100)

/-- Embedding of the MER-ellipse branch of `handle_object_click`: the id of
the first item in iteration order whose centre passes the distance test. -/
def handle_object_click (sx sy : ℚ) (items : List EllipseItem) : Option ℤ :=
  (items.find? (within_click_tolerance sx sy)).map EllipseItem.object_id

/-! ### Lasso selection update

Embedding of `PlotDialog.on_lasso_select(verts)` (catalog_plotter.py, lines
821-844) for a plot whose points carry object ids.  The containment test
`Path(verts).contains_points` is an external geometric routine and enters
the embedding as a predicate on plotted points; `ind` is the set of matched
points.  The id arrays kept with `np.union1d` are sorted and duplicate-free,
so they are embedded as finite sets of integers.  Mirrors the source: when
at least one point matched, the matched ids are unioned into
`self.selected_object_ids`; otherwise that array is left unchanged. -/

/-- A plotted point in the coordinate space the lasso path lives in. -/
abbrev PlotPoint := ℚ × ℚ

/-- The ids of the plotted points matched by the containment test: the
embedding of `self.plotted_object_ids[ind]` for
`ind = np.nonzero(path.contains_points(points))[0]`. -/
def lasso_matched_ids (contains : PlotPoint → Bool)
    (pts : List (ℤ × PlotPoint)) : Finset ℤ :=
  ((pts.filter (fun p => contains p.2)).map Prod.fst).toFinset

/-- Embedding of the selection update of `on_lasso_select`: the new value of
`self.selected_object_ids`.  Mirrors the branch on `ind.size > 0`. -/
def on_lasso_select (contains : PlotPoint → Bool) (pts : List (ℤ × PlotPoint))
    (selected_object_ids : Finset ℤ) : Finset ℤ :=
  let ind := lasso_matched_ids contains pts
  if 0 < ind.card then selected_object_ids ∪ ind else selected_object_ids

/-! ### Asynchronous load pipeline

Embedding of `ImageViewer.load_image(path)` (image_viewer.py, lines 217-232)
and `ImageViewer.on_image_loaded(image, metadata, path)` (lines 234-293) as
a state machine.  A call to `load_image` creates a fresh `QThread` and
`LoadWorker` and starts the thread; it contains no interruption, disconnect
or cancellation of a previously started worker, so the previous worker stays
in flight with its `finished` signal still connected to `on_image_loaded`.
When any worker's completion is delivered, `on_image_loaded` resets the
viewer and unconditionally installs the delivered image — it performs no
check that the delivering worker is the most recently started one.  Image
payloads are abstract tokens (`ℕ`); workers are numbered in creation
order. -/

/-- State of the load pipeline: the currently displayed image (if any), the
workers in flight with the payload each will deliver, and the number used
for the next worker. -/
structure LoadPipelineState where
  displayed : Option ℕ
  pending : List (ℕ × ℕ)
  nextId : ℕ
  deriving DecidableEq

/-- Embedding of `load_image`: a new worker is created and started; no
existing worker is cancelled or disconnected. -/
def load_image (st : LoadPipelineState) (img : ℕ) : LoadPipelineState :=
  { displayed := st.displayed
    pending := st.pending ++ [(st.nextId, img)]
    nextId := st.nextId + 1 }

/-- Embedding of `on_image_loaded` for a delivered worker completion: the
worker leaves the in-flight set and its payload is installed as the
displayed image, unconditionally. -/
def on_image_loaded (st : LoadPipelineState) (w : ℕ × ℕ) : LoadPipelineState :=
  { displayed := some w.2
    pending := st.pending.erase w
    nextId := st.nextId }

/-! ### Concrete instances used to evaluate the definitions -/

/-- Viewer start state: nothing displayed, no load in flight. -/
def initialLoadState : LoadPipelineState :=
  { displayed := none, pending := [], nextId := 0 }

/-- Metadata whose CD matrix is identically zero, hence singular. -/
def singularMetadata : WCSMetadata :=
  { crpix1 := 0, crpix2 := 0
    cd1_1 := 0, cd1_2 := 0, cd2_1 := 0, cd2_2 := 0
    crval1 := 0, crval2 := 0
    ctype1 := "RA---TAN", ctype2 := "DEC--TAN"
    cunit1 := "deg", cunit2 := "deg"
    radesys := none, equinox := none }

/-- A concrete stand-in for the coordinate conversion of a loaded image. -/
def identityWCS : ℚ → ℚ → ℚ × ℚ := fun ra dec => (ra, dec)

/-- A catalog row with semimajor axis 2 and ellipticity one half. -/
def sampleRow : MERRow :=
  { object_id := 7, right_ascension := 10, declination := 20
    semimajor_axis := 2, ellipticity := 1 / 2, position_angle := 40 }

/-- A catalog carrying all required columns and one row. -/
def sampleCatalog : MERCatalog :=
  { colnames := required_columns, rows := [sampleRow] }

/-- A catalog whose column list lacks DECLINATION. -/
def missingColCatalog : MERCatalog :=
  { colnames := ["OBJECT_ID", "RIGHT_ASCENSION",
                 "SEMIMAJOR_AXIS", "POSITION_ANGLE", "ELLIPTICITY"]
    rows := [sampleRow] }

/-- MER item whose centre is at distance 9 from the origin, id 1. -/
def clickItemFar : EllipseItem := make_ellipse 9 0 2 2 0 1

/-- MER item whose centre is at distance 1 from the origin, id 2. -/
def clickItemNear : EllipseItem := make_ellipse 1 0 2 2 0 2

/-- A FLUX column holding a positive and a non-positive flux. -/
def fluxColumn : NamedColumn := { name := "FLUX_G", values := [1, -1] }

/-- A catalog table with the single FLUX column above, magnitudes not yet
computed. -/
def fluxTable : CatalogTable :=
  { columns := [fluxColumn], has_magnitudes := false }

/-- A concrete stand-in for the logarithm collaborator. -/
def zeroLog : ℚ → ℚ := fun _ => 0

/-! ## Helper lemmas -/

theorem npClip01_nonneg (x : ℚ) : 0 ≤ npClip x 0 1 :=
  le_max_left _ _

theorem npClip01_le_one (x : ℚ) : npClip x 0 1 ≤ 1 :=
  max_le zero_le_one (min_le_left _ _)

theorem npClip01_mono {x y : ℚ} (h : x ≤ y) : npClip x 0 1 ≤ npClip y 0 1 :=
  max_le_max le_rfl (min_le_min le_rfl h)

theorem astype_uint8_mono {x y : ℚ} (h0 : 0 ≤ x) (hxy : x ≤ y) (hy : y ≤ 255) :
    astype_uint8 x ≤ astype_uint8 y := by
  unfold astype_uint8
  have hfx : (0 : ℤ) ≤ ⌊x⌋ := Int.floor_nonneg.mpr h0
  have hxf : ⌊x⌋ ≤ ⌊y⌋ := Int.floor_le_floor hxy
  have hfy : ⌊y⌋ ≤ 255 := by
    have h255 : ⌊y⌋ ≤ ⌊(255 : ℚ)⌋ := Int.floor_le_floor hy
    simpa using h255
  rw [Nat.mod_eq_of_lt (by omega), Nat.mod_eq_of_lt (by omega)]
  omega

/-! ## Claim theorems -/

/-- Claim C1 (code bug in the source): with max equal to min, every entry of
the lookup table produced by create_contrast_lut evaluates to 1, not to the
maximum display value 255.  The degenerate branch fills the table with 255,
but the final statement multiplies the table by 255 again, so every entry
becomes 65025, which the uint8 cast wraps to 1. -/
theorem C1_flat_lut_entry_is_one (m : ℚ) (v : ℕ) :
    create_contrast_lut m m v = 1 := by
  show astype_uint8 (255 *
    (if m - m = 0 then (255 : ℚ) else npClip (((v : ℚ) - m) / (m - m)) 0 1)) = 1
  rw [if_pos (sub_self m)]
  norm_num [astype_uint8]
  decide

/-- Claim C8: with min strictly below max, the lookup table produced by
create_contrast_lut is monotonically non-decreasing in the input sample
value. -/
theorem C8_lut_monotone (min_val max_val : ℚ) (v1 v2 : ℕ)
    (hlt : min_val < max_val) (hv : v1 ≤ v2) :
    create_contrast_lut min_val max_val v1 ≤ create_contrast_lut min_val max_val v2 := by
  have hne : max_val - min_val ≠ 0 := sub_ne_zero.mpr (ne_of_gt hlt)
  have hpos : 0 < max_val - min_val := sub_pos.mpr hlt
  show astype_uint8 (255 *
      (if max_val - min_val = 0 then (255 : ℚ)
       else npClip (((v1 : ℚ) - min_val) / (max_val - min_val)) 0 1)) ≤
    astype_uint8 (255 *
      (if max_val - min_val = 0 then (255 : ℚ)
       else npClip (((v2 : ℚ) - min_val) / (max_val - min_val)) 0 1))
  rw [if_neg hne, if_neg hne]
  have hcast : ((v1 : ℚ)) ≤ (v2 : ℚ) := by exact_mod_cast hv
  have hxy : ((v1 : ℚ) - min_val) / (max_val - min_val) ≤
      ((v2 : ℚ) - min_val) / (max_val - min_val) :=
    (div_le_div_iff_of_pos_right hpos).mpr (sub_le_sub_right hcast _)
  have hclip := npClip01_mono hxy
  refine astype_uint8_mono ?_ ?_ ?_
  · exact mul_nonneg (by norm_num) (npClip01_nonneg _)
  · exact mul_le_mul_of_nonneg_left hclip (by norm_num)
  · calc (255 : ℚ) * npClip (((v2 : ℚ) - min_val) / (max_val - min_val)) 0 1
        ≤ 255 * 1 := mul_le_mul_of_nonneg_left (npClip01_le_one _) (by norm_num)
      _ = 255 := by norm_num

/-- Witness for C8 at min 0, max 10, inputs 5 and 7. -/
theorem C8_lut_monotone_witness :
    create_contrast_lut 0 10 5 ≤ create_contrast_lut 0 10 7 :=
  C8_lut_monotone 0 10 5 7 (by norm_num) (by norm_num)

/-- Claim C3 (counterexample): constructing the converter from metadata with
an identically zero, hence singular, CD matrix does not produce the
construction-time error the claim asserts: the constructor succeeds. -/
theorem C3_counterexample :
    cdDeterminant singularMetadata = 0 ∧
    WCSConverter_init singularMetadata ≠ Except.error WCSError.invalidTransform := by
  constructor
  · norm_num [cdDeterminant, singularMetadata]
  · simp [WCSConverter_init]

/-- Claim C3 (amended): construction from metadata with a singular CD matrix
succeeds; the matrix is stored as-is and no invertibility check is performed
at construction time. -/
theorem C3_singular_construction_succeeds (md : WCSMetadata)
    (_h : cdDeterminant md = 0) :
    ∃ s, WCSConverter_init md = Except.ok s ∧
      s.cd = ((md.cd1_1, md.cd1_2), (md.cd2_1, md.cd2_2)) :=
  ⟨_, rfl, rfl⟩

/-- Witness for the amended C3 at the zero CD matrix. -/
theorem C3_singular_construction_succeeds_witness :
    ∃ s, WCSConverter_init singularMetadata = Except.ok s ∧
      s.cd = ((singularMetadata.cd1_1, singularMetadata.cd1_2),
              (singularMetadata.cd2_1, singularMetadata.cd2_2)) :=
  C3_singular_construction_succeeds singularMetadata
    (by norm_num [cdDeterminant, singularMetadata])

/-- Claim C2 (counterexample): after two load requests both workers are in
flight (nothing is cancelled), and if the first worker's completion is
delivered after the second's, the first load's image ends up displayed —
refuting both the at-most-one-in-flight and the only-the-second-result
assertions. -/
theorem C2_counterexample :
    (load_image (load_image initialLoadState 10) 20).pending.length = 2 ∧
    (0, 10) ∈ (load_image (load_image initialLoadState 10) 20).pending ∧
    (on_image_loaded (on_image_loaded
        (load_image (load_image initialLoadState 10) 20) (1, 20)) (0, 10)).displayed
      = some 10 := by
  decide

/-- Helper: processing a non-empty sequence of worker completions leaves the
payload of the last processed completion displayed. -/
theorem foldl_loaded_displayed :
    ∀ (ws : List (ℕ × ℕ)) (h : ws ≠ []) (st : LoadPipelineState),
      (ws.foldl on_image_loaded st).displayed = some (ws.getLast h).2
  | [], h, _ => absurd rfl h
  | [w], _, st => by simp [on_image_loaded]
  | w :: w2 :: rest, _, st => by
    rw [List.foldl_cons, List.getLast_cons (List.cons_ne_nil _ _)]
    exact foldl_loaded_displayed (w2 :: rest) (List.cons_ne_nil _ _) _

/-- Claim C2 (amended): a new load request leaves every previously started
worker in flight (no cancellation), and every delivered completion is
applied unconditionally, so after a sequence of completions the displayed
image is the payload of the last completion processed — last completion
wins, not last request. -/
theorem C2_no_cancellation (st : LoadPipelineState) (img : ℕ)
    (ws : List (ℕ × ℕ)) (h : ws ≠ []) :
    (load_image st img).pending = st.pending ++ [(st.nextId, img)] ∧
    (ws.foldl on_image_loaded st).displayed = some (ws.getLast h).2 :=
  ⟨rfl, foldl_loaded_displayed ws h st⟩

/-- Witness for the amended C2: completions delivered in the order second
worker then first worker leave the first worker's image displayed. -/
theorem C2_no_cancellation_witness :
    (([(1, 20), (0, 10)] : List (ℕ × ℕ)).foldl on_image_loaded
      initialLoadState).displayed = some 10 := by
  have h := (C2_no_cancellation initialLoadState 10 [(1, 20), (0, 10)]
    (List.cons_ne_nil _ _)).2
  simpa using h

/-- Helper: a successful find splits the list at the first element that
satisfies the test; everything before it fails the test. -/
theorem find?_eq_some_split {α : Type} (p : α → Bool) :
    ∀ (l : List α) (a : α), l.find? p = some a →
      p a = true ∧ ∃ l1 l2, l = l1 ++ a :: l2 ∧ ∀ x ∈ l1, p x = false
  | [], a, h => by simp [List.find?] at h
  | b :: t, a, h => by
    by_cases hb : p b = true
    · rw [List.find?_cons_of_pos _ hb] at h
      obtain rfl : b = a := by injection h
      exact ⟨hb, [], t, rfl, by simp⟩
    · have hb' : p b = false := by simpa using hb
      rw [List.find?_cons_of_neg _ (by simp [hb'])] at h
      obtain ⟨hpa, l1, l2, heq, hl1⟩ := find?_eq_some_split p t a h
      refine ⟨hpa, b :: l1, l2, by rw [heq, List.cons_append], ?_⟩
      intro x hx
      rcases List.mem_cons.mp hx with rfl | hx
      · exact hb'
      · exact hl1 x hx

/-- Claim C4 (counterexample): at click position (0, 0), with the item of id
1 centred at (9, 0) listed before the item of id 2 centred at (1, 0), the
hit test returns id 1 even though the centre of id 2 is strictly nearer and
within tolerance — the code picks the first hit in iteration order, not the
nearest. -/
theorem C4_counterexample :
    handle_object_click 0 0 [clickItemFar, clickItemNear] = some 1 ∧
    click_dist_sq 0 0 clickItemNear ≤ 100 ∧
    click_dist_sq 0 0 clickItemNear < click_dist_sq 0 0 clickItemFar := by
  refine ⟨?_, ?_, ?_⟩
  · unfold handle_object_click
    rw [List.find?_cons_of_pos]
    · rfl
    · simp only [within_click_tolerance, decide_eq_true_eq, click_dist_sq,
        clickItemFar, make_ellipse]
      norm_num
  · norm_num [click_dist_sq, clickItemNear, make_ellipse]
  · norm_num [click_dist_sq, clickItemNear, clickItemFar, make_ellipse]

/-- Claim C4 (amended): the hit test returns none exactly when no item
centre is within the 10-unit tolerance of the click; when it returns an id,
that id belongs to the first item in iteration order whose centre is within
tolerance — every earlier item fails the tolerance test, but nearer items
later in the list are ignored. -/
theorem C4_first_hit (sx sy : ℚ) (items : List EllipseItem) :
    (handle_object_click sx sy items = none ↔
      ∀ e ∈ items, ¬ click_dist_sq sx sy e ≤ 100) ∧
    (∀ i, handle_object_click sx sy items = some i →
      ∃ l1 e l2, items = l1 ++ e :: l2 ∧ e.object_id = i ∧
        click_dist_sq sx sy e ≤ 100 ∧
        ∀ x ∈ l1, ¬ click_dist_sq sx sy x ≤ 100) := by
  constructor
  · unfold handle_object_click
    rw [Option.map_eq_none', List.find?_eq_none]
    simp [within_click_tolerance]
  · intro i h
    unfold handle_object_click at h
    obtain ⟨e, hfind, hid⟩ := Option.map_eq_some'.mp h
    obtain ⟨hpe, l1, l2, heq, hl1⟩ := find?_eq_some_split _ items e hfind
    refine ⟨l1, e, l2, heq, hid, ?_, ?_⟩
    · simpa [within_click_tolerance] using hpe
    · intro x hx
      simpa [within_click_tolerance] using hl1 x hx

/-- Witness for the amended C4 at the concrete two-item scene. -/
theorem C4_first_hit_witness :
    ∃ l1 e l2, ([clickItemFar, clickItemNear] : List EllipseItem) = l1 ++ e :: l2 ∧
      e.object_id = 1 ∧ click_dist_sq 0 0 e ≤ 100 ∧
      ∀ x ∈ l1, ¬ click_dist_sq 0 0 x ≤ 100 := by
  refine (C4_first_hit 0 0 [clickItemFar, clickItemNear]).2 1 ?_
  unfold handle_object_click
  rw [List.find?_cons_of_pos]
  · rfl
  · simp only [within_click_tolerance, decide_eq_true_eq, click_dist_sq,
      clickItemFar, make_ellipse]
    norm_num

/-- Helper: the selection update always equals the union with the matched
ids (the empty-match branch leaves the set unchanged, which is the union
with the empty set). -/
theorem lasso_select_eq_union (c : PlotPoint → Bool)
    (pts : List (ℤ × PlotPoint)) (s : Finset ℤ) :
    on_lasso_select c pts s = s ∪ lasso_matched_ids c pts := by
  unfold on_lasso_select
  by_cases h : 0 < (lasso_matched_ids c pts).card
  · rw [if_pos h]
  · rw [if_neg h]
    have hempty : lasso_matched_ids c pts = ∅ := Finset.card_eq_zero.mp (by omega)
    rw [hempty, Finset.union_empty]

/-- Helper: the ids matched by the union of two regions are the union of the
ids matched by each. -/
theorem lasso_matched_ids_or (c1 c2 : PlotPoint → Bool)
    (pts : List (ℤ × PlotPoint)) :
    lasso_matched_ids (fun p => c1 p || c2 p) pts =
      lasso_matched_ids c1 pts ∪ lasso_matched_ids c2 pts := by
  ext i
  simp only [lasso_matched_ids, List.mem_toFinset, List.mem_map,
    List.mem_filter, Bool.or_eq_true, Finset.mem_union]
  constructor
  · rintro ⟨a, ⟨ha, hc | hc⟩, rfl⟩
    · exact Or.inl ⟨a, ⟨ha, hc⟩, rfl⟩
    · exact Or.inr ⟨a, ⟨ha, hc⟩, rfl⟩
  · rintro (⟨a, ⟨ha, hc⟩, rfl⟩ | ⟨a, ⟨ha, hc⟩, rfl⟩)
    · exact ⟨a, ⟨ha, Or.inl hc⟩, rfl⟩
    · exact ⟨a, ⟨ha, Or.inr hc⟩, rfl⟩

/-- Claim C5: every lasso gesture updates the selection set to its union
with the matched identifiers (never replacing it); re-selecting the same
region changes nothing; and selecting region A then region B — in either
order — equals selecting the union region A or B. -/
theorem C5_lasso_union_laws :
    (∀ (c : PlotPoint → Bool) (pts : List (ℤ × PlotPoint)) (s : Finset ℤ),
      on_lasso_select c pts s = s ∪ lasso_matched_ids c pts) ∧
    (∀ (c : PlotPoint → Bool) (pts : List (ℤ × PlotPoint)) (s : Finset ℤ),
      on_lasso_select c pts (on_lasso_select c pts s) = on_lasso_select c pts s) ∧
    (∀ (c1 c2 : PlotPoint → Bool) (pts : List (ℤ × PlotPoint)) (s : Finset ℤ),
      on_lasso_select c2 pts (on_lasso_select c1 pts s) =
        on_lasso_select (fun p => c1 p || c2 p) pts s ∧
      on_lasso_select c1 pts (on_lasso_select c2 pts s) =
        on_lasso_select (fun p => c1 p || c2 p) pts s) := by
  refine ⟨lasso_select_eq_union, ?_, ?_⟩
  · intro c pts s
    rw [lasso_select_eq_union, lasso_select_eq_union, Finset.union_assoc,
      Finset.union_self]
  · intro c1 c2 pts s
    constructor
    · rw [lasso_select_eq_union, lasso_select_eq_union, lasso_select_eq_union,
        lasso_matched_ids_or, Finset.union_assoc]
    · rw [lasso_select_eq_union, lasso_select_eq_union, lasso_select_eq_union,
        lasso_matched_ids_or, Finset.union_assoc,
        Finset.union_comm (lasso_matched_ids c2 pts)]

/-- Claim C6: when all required columns are present, the overlay holds one
shape per catalog row, and each shape's semimajor axis is 3 times the
catalog value while its semi-minor axis is that rescaled value times
(1 - ellipticity). -/
theorem C6_overlay_scaling (wcs : ℚ → ℚ → ℚ × ℚ) (image_height : ℚ)
    (cat : MERCatalog) (hcols : ∀ c ∈ required_columns, c ∈ cat.colnames) :
    (get_MER wcs image_height cat).2 =
      cat.rows.map (make_MER_item wcs image_height) ∧
    ∀ r : MERRow,
      (make_MER_item wcs image_height r).a = 3 * r.semimajor_axis ∧
      (make_MER_item wcs image_height r).b =
        3 * r.semimajor_axis * (1 - r.ellipticity) := by
  constructor
  · unfold get_MER
    by_cases hrows : cat.rows.isEmpty
    · rw [if_pos hrows]
      have hnil : cat.rows = [] := List.isEmpty_iff.mp hrows
      simp [hnil]
    · rw [if_neg hrows]
      have hfind : required_columns.find?
          (fun c => !(decide (c ∈ cat.colnames))) = none := by
        rw [List.find?_eq_none]
        intro c hc
        simp [hcols c hc]
      rw [hfind]
  · intro r
    simp [make_MER_item, make_ellipse]

/-- Witness for C6: on the one-row catalog with semimajor axis 2 and
ellipticity one half, the produced shape has semimajor axis 6 and semi-minor
axis 3. -/
theorem C6_overlay_scaling_witness :
    (get_MER identityWCS 100 sampleCatalog).2 =
      [make_MER_item identityWCS 100 sampleRow] ∧
    (make_MER_item identityWCS 100 sampleRow).a = 6 ∧
    (make_MER_item identityWCS 100 sampleRow).b = 3 := by
  have h := C6_overlay_scaling identityWCS 100 sampleCatalog (by decide)
  refine ⟨by rw [h.1]; rfl, ?_, ?_⟩
  · rw [(h.2 sampleRow).1]
    norm_num [sampleRow]
  · rw [(h.2 sampleRow).2]
    norm_num [sampleRow]

/-- Claim C7: on a loaded (non-empty) catalog, a missing required column
makes the overlay build surface an error and produce no shape for any row —
the column check precedes the build loop, so there is no partial overlay. -/
theorem C7_missing_column_aborts (wcs : ℚ → ℚ → ℚ × ℚ) (image_height : ℚ)
    (cat : MERCatalog) (hrows : cat.rows ≠ [])
    (hmiss : ∃ c ∈ required_columns, c ∉ cat.colnames) :
    (get_MER wcs image_height cat).1.isSome = true ∧
    (get_MER wcs image_height cat).2 = [] := by
  unfold get_MER
  rw [if_neg (by simpa [List.isEmpty_iff] using hrows)]
  cases hfind : required_columns.find? (fun c => !(decide (c ∈ cat.colnames))) with
  | none =>
    exfalso
    rw [List.find?_eq_none] at hfind
    obtain ⟨c, hc, hnot⟩ := hmiss
    have hcontra := hfind c hc
    simp [hnot] at hcontra
  | some c => simp

/-- Witness for C7: the catalog lacking DECLINATION, with one row, yields an
error and an empty overlay. -/
theorem C7_missing_column_aborts_witness :
    (get_MER identityWCS 100 missingColCatalog).1.isSome = true ∧
    (get_MER identityWCS 100 missingColCatalog).2 = [] :=
  C7_missing_column_aborts identityWCS 100 missingColCatalog (by decide)
    ⟨"DECLINATION", by decide, by decide⟩

/-- Claim C9: with a catalog manager and image present, selecting an empty
id list, or a list of ids all absent from the loaded catalog, leaves the
highlight state empty: the previous highlights are cleared and no new shape
is added, whatever the previous state was. -/
theorem C9_empty_selection_clears (hasWCS : Bool) (c : MERCatalog)
    (wcs : ℚ → ℚ → ℚ × ℚ) (image_height : ℚ) (st : ViewerSelectionState)
    (ids : List ℤ)
    (hids : ids = [] ∨ ∀ i ∈ ids, ∀ r ∈ c.rows, r.object_id ≠ i) :
    (display_selected_MER true true hasWCS (some c) wcs image_height st
      ids).selected_items = [] := by
  unfold display_selected_MER
  rw [if_neg (by simp)]
  show get_selected_MER (some c) hasWCS ids image_height wcs = []
  simp only [get_selected_MER]
  rcases hids with rfl | habs
  · simp
  · by_cases hguard : (c.rows.isEmpty || !hasWCS || ids.isEmpty) = true
    · simp [hguard]
    · rw [if_neg hguard]
      have hfilter : c.rows.filter (fun r => decide (r.object_id ∈ ids)) = [] := by
        rw [List.filter_eq_nil_iff]
        intro r hr
        simp only [decide_eq_true_eq]
        exact fun hmem => habs r.object_id hmem r hr rfl
      simp [hfilter]

/-- Witness for C9: selecting the absent id 5 on the one-row catalog (its
only id is 7) clears a previously non-empty highlight state. -/
theorem C9_empty_selection_clears_witness :
    (display_selected_MER true true true (some sampleCatalog) identityWCS 100
      { selected_items := [clickItemNear] } [5]).selected_items = [] :=
  C9_empty_selection_clears true sampleCatalog identityWCS 100
    { selected_items := [clickItemNear] } [5] (Or.inr (by decide))

/-- Claim C10: every column whose name starts with FLUX yields a column
whose name has FLUX replaced by MAG, each entry being
-2.5 * log10(1e-6 * flux) + 8.90 for positive flux and 99.0 otherwise; and
the computation is idempotent. -/
theorem C10_magnitudes (log10 : ℚ → ℚ) (t : CatalogTable) :
    (∀ c, c ∈ t.columns → t.has_magnitudes = false →
      pyStartsWith c.name "FLUX" = true →
      ∃ c' ∈ (compute_magnitudes log10 t).columns,
        c'.name = pyReplace c.name "FLUX" "MAG" ∧
        c'.values = c.values.map (fun f =>
          if 0 < f then -(5 / 2) * log10 (1 / 1000000 * f) + 89 / 10 else 99)) ∧
    compute_magnitudes log10 (compute_magnitudes log10 t) =
      compute_magnitudes log10 t := by
  constructor
  · intro c hc hflag hstart
    refine ⟨mag_column log10 c, ?_, rfl, ?_⟩
    · unfold compute_magnitudes
      rw [if_neg (by simp [hflag])]
      exact List.mem_append_right _
        (List.mem_map_of_mem _ (List.mem_filter.mpr ⟨hc, hstart⟩))
    · show c.values.map (mag_of_flux log10) = _
      refine List.map_congr_left ?_
      intro f _
      unfold mag_of_flux
      have hiff : (0 < 1 / 1000000 * f) ↔ 0 < f := by
        constructor <;> intro h <;> nlinarith
      rw [if_congr hiff rfl rfl]
  · by_cases h : t.has_magnitudes = true
    · simp [compute_magnitudes, h]
    · simp [compute_magnitudes, h]

/-- Witness for C10: the FLUX_G column of the concrete table yields a MAG_G
column with the stated per-entry values. -/
theorem C10_magnitudes_witness :
    (∃ c' ∈ (compute_magnitudes zeroLog fluxTable).columns,
      c'.name = pyReplace fluxColumn.name "FLUX" "MAG" ∧
      c'.values = fluxColumn.values.map (fun f =>
        if 0 < f then -(5 / 2) * zeroLog (1 / 1000000 * f) + 89 / 10 else 99)) ∧
    pyReplace fluxColumn.name "FLUX" "MAG" = "MAG_G" := by
  constructor
  · exact (C10_magnitudes zeroLog fluxTable).1 fluxColumn
      (List.mem_cons_self _ _) rfl (by decide)
  · decide

end Euniverse
